import Mathlib

/-!
# Verification of the POSH training backend (`PoshBackend.py`)

Shallow embedding of the FastAPI backend in `src/PoshBackend.py`.

Modelling choices:
* The MongoDB `users` collection is a `List UserRecord`; `find_one {"email": e}`
  is first match on the `email` field, `update_one`/`$set` rewrites the first
  matching document, `insert_one` appends.
* The `authorized_emails` collection is a `List (String × String)` of
  (email, name) pairs.
* `datetime` values are rationals counting seconds; `total_seconds() / 60`
  becomes division by `60` in `ℚ`.
* `strftime` outputs (`quiz_time`, `quiz_date`) are passed in as the already
  formatted strings, since only their round-tripping matters to the claims.
* JWT tokens are a record of the facts the PyJWT library checks: whether the
  signature verifies under the process secret, the embedded expiry, and the
  optional `email` claim.  `jwt.decode` raises on a bad signature or on an
  expired token; expiry is `now > exp` as the spec states for the library.
-/

namespace Posh

/-- One document of the `users` collection, with the fields the code ever
reads or writes.  Fields that are absent on insert and only added by later
`$set`s are `Option`s, `none` meaning "field not present". -/
structure UserRecord where
  id : String
  email : String
  name : String
  completed_slides : Int
  total_login_time : ℚ
  login_count : Int
  status : String
  start_time : Option ℚ
  current_slide : Option Int
  end_time : Option ℚ
  finished_at : Option ℚ
  quiz_score : Option Int
  quiz_time : Option String
  quiz_date : Option String
deriving DecidableEq

/-- Mongo `users_collection.find_one({"email": e})`: first document whose
`email` field equals `e`. -/
def find_one (store : List UserRecord) (e : String) : Option UserRecord :=
  store.find? (fun u => u.email == e)

/-- Mongo `users_collection.update_one({"email": e}, {"$set": ...})`: rewrite
the first document whose `email` field equals `e`; no match means no change
(the code never passes `upsert`). -/
def update_one (store : List UserRecord) (e : String) (f : UserRecord → UserRecord) :
    List UserRecord :=
  match store with
  | [] => []
  | u :: rest => if u.email == e then f u :: rest else u :: update_one rest e f

/-- Number of documents in the store whose `email` field equals `e`. -/
def countEmail (store : List UserRecord) (e : String) : Nat :=
  (store.filter (fun u => u.email == e)).length

/-- Character class `[a-zA-Z0-9._%+-]` of the local part of the e-mail
regex in `is_valid_email`. -/
def isLocalChar (c : Char) : Bool :=
  c.isAlphanum || c == '.' || c == '_' || c == '%' || c == '+' || c == '-'

/-- Character class `[a-zA-Z0-9.-]` of the domain part of the e-mail regex. -/
def isDomainChar (c : Char) : Bool :=
  c.isAlphanum || c == '.' || c == '-'

/-- Match of `[a-zA-Z0-9.-]+\.[a-zA-Z]{2,}` against the whole character
list: some split point `i` has a nonempty domain-char run before it, a dot
at it, and at least two alphabetic characters (and nothing else) after it. -/
def matchDomain (cs : List Char) : Bool :=
  (List.range cs.length).any (fun i =>
    decide (1 ≤ i) &&
    (cs.take i).all isDomainChar &&
    (cs.drop i).take 1 == ['.'] &&
    (decide (2 ≤ (cs.drop (i + 1)).length) && (cs.drop (i + 1)).all Char.isAlpha))

/-- Match of the full pattern `^[a-zA-Z0-9._%+-]+@[a-zA-Z0-9.-]+\.[a-zA-Z]{2,}$`
against the whole character list. -/
def matchEmail (cs : List Char) : Bool :=
  (List.range cs.length).any (fun i =>
    decide (1 ≤ i) &&
    (cs.take i).all isLocalChar &&
    (cs.drop i).take 1 == ['@'] &&
    matchDomain (cs.drop (i + 1)))

/-- Function `is_valid_email`: `re.match` of the regex against the string.  Python's
`$` also matches just before a single trailing newline, which the second
disjunct reproduces. -/
def is_valid_email (email : String) : Bool :=
  matchEmail email.toList ||
  (email.toList.getLast? == some '\n' && matchEmail email.toList.dropLast)

/-- Python's `str.lower()` on the ASCII strings at hand: lower-case every
character. -/
def lowerStr (s : String) : String := String.mk (s.toList.map Char.toLower)

/-- Function `is_email_authorized`: look the lowercased e-mail up in the
`authorized_emails` collection; return `(true, name)` on a hit and
`(false, "")` on a miss. -/
def is_email_authorized (allow : List (String × String)) (email : String) :
    Bool × String :=
  match allow.find? (fun p => p.1 == lowerStr email) with
  | some p => (true, p.2)
  | none => (false, "")

/-- A JWT as far as `jwt.decode` is concerned: does the signature verify
under the process `SECRET_KEY`/`ALGORITHM`, the embedded `exp`, and the
optional `email` claim of the payload. -/
structure JwtToken where
  sigValid : Bool
  exp : ℚ
  email : Option String
deriving DecidableEq

/-- Function `create_access_token` with payload `{"email": email}` and a minutes TTL:
a signed token whose expiry is `now + 60 * ttl` seconds and whose payload
carries the e-mail claim. -/
def create_access_token (email : String) (now ttl_minutes : ℚ) : JwtToken :=
  { sigValid := true, exp := now + 60 * ttl_minutes, email := some email }

/-- Body of the `/auth` response: either a structured error body (returned
with HTTP 200) identified by its `error_code`, or the success body. -/
inductive AuthResponse where
  | err (error_code : String)
  | ok (access_token : JwtToken) (email : String) (login_count : Int) (user_name : String)
deriving DecidableEq

/-- Fresh user document inserted by `/auth` when no document for the e-mail
exists yet. -/
def newUserRecord (user_id email name : String) : UserRecord :=
  { id := user_id, email := email, name := name,
    completed_slides := 0, total_login_time := 0, login_count := 1,
    status := "in_progress", start_time := none,
    current_slide := none, end_time := none, finished_at := none,
    quiz_score := none, quiz_time := none, quiz_date := none }

/-- Endpoint `POST /auth` (`authenticate_user`).  `new_id` stands for the
`str(uuid.uuid4())` drawn in the create branch; `now` and `ttl` feed token
creation.  Returns the updated store and the response body. -/
def authenticate_user (allow : List (String × String)) (store : List UserRecord)
    (email new_id : String) (now ttl : ℚ) : List UserRecord × AuthResponse :=
  if ¬ is_valid_email email then
    (store, .err "INVALID_EMAIL_FORMAT")
  else
    match is_email_authorized allow email with
    | (false, _) => (store, .err "EMAIL_NOT_AUTHORIZED")
    | (true, name) =>
      match find_one store email with
      | some user =>
          let login_count := user.login_count + 1
          (update_one store email (fun u => { u with login_count := login_count }),
           .ok (create_access_token email now ttl) email login_count name)
      | none =>
          (store ++ [newUserRecord new_id email name],
           .ok (create_access_token email now ttl) email 1 name)
/-- A raised `HTTPException`: status code and detail string. -/
structure HTTPException where
  status_code : Nat
  detail : String
deriving DecidableEq

/-- The `HTTPException(404, "User not found")` every record-reading endpoint
raises when no document exists for the authenticated e-mail. -/
def userNotFound : HTTPException := { status_code := 404, detail := "User not found" }

/-- The consistent JSON error envelope produced by
`custom_http_exception_handler`. -/
structure ErrorEnvelope where
  error : Bool
  error_code : String
  message : String
  details : String
deriving DecidableEq

/-- Handler `custom_http_exception_handler`: 401 becomes the `UNAUTHORIZED` envelope,
404 the `NOT_FOUND` envelope, anything else `HTTP_<status>`. -/
def custom_http_exception_handler (exc : HTTPException) : ErrorEnvelope :=
  if exc.status_code == 401 then
    { error := true, error_code := "UNAUTHORIZED",
      message := "Unauthorized Access", details := exc.detail }
  else if exc.status_code == 404 then
    { error := true, error_code := "NOT_FOUND",
      message := "Resource Not Found", details := exc.detail }
  else
    { error := true, error_code := "HTTP_" ++ toString exc.status_code,
      message := exc.detail, details := exc.detail }

/-- Outcome of `jwt.decode(token, SECRET_KEY, algorithms=[ALGORITHM])` at
time `now`: a `PyJWTError` when the signature does not verify or the token
is expired (`now > exp`), otherwise the decoded payload's e-mail claim. -/
inductive JwtDecodeResult where
  | pyJwtError
  | payload (email : Option String)
deriving DecidableEq

/-- The PyJWT decode step used by `get_current_user`. -/
def jwt_decode (tok : JwtToken) (now : ℚ) : JwtDecodeResult :=
  if tok.sigValid = false then .pyJwtError
  else if now > tok.exp then .pyJwtError
  else .payload tok.email

/-- Dependency `get_current_user`: decode the bearer token; any `PyJWTError` or a
payload without an e-mail claim raises the 401 `credentials_exception`,
otherwise the authenticated e-mail is returned. -/
def get_current_user (tok : JwtToken) (now : ℚ) : Except HTTPException String :=
  match jwt_decode tok now with
  | .pyJwtError => .error { status_code := 401, detail := "Could not validate credentials" }
  | .payload none => .error { status_code := 401, detail := "Could not validate credentials" }
  | .payload (some email) => .ok email

/-- Endpoint `POST /progress/start` (`start_slide`): 404 when no document exists,
else `$set` `current_slide` and `start_time`.  The success body reports the
slide and start time. -/
def start_slide (store : List UserRecord) (email : String) (slide_id : Int)
    (now : ℚ) : List UserRecord × Except HTTPException (Int × ℚ) :=
  match find_one store email with
  | none => (store, .error userNotFound)
  | some _ =>
      (update_one store email
        (fun u => { u with current_slide := some slide_id, start_time := some now }),
       .ok (slide_id, now))

/-- Endpoint `POST /progress/end` (`end_slide`): 404 when no document exists; else
elapsed minutes since `start_time` (0 when unset) are added to
`total_login_time`, `completed_slides` is raised to `slide_id` when larger,
and `end_time` is recorded.  Note the code never clears `start_time`.  The
success body reports the slide, end time and new cumulative total. -/
def end_slide (store : List UserRecord) (email : String) (slide_id : Int)
    (now : ℚ) : List UserRecord × Except HTTPException (Int × ℚ × ℚ) :=
  match find_one store email with
  | none => (store, .error userNotFound)
  | some user =>
      let login_time : ℚ :=
        match user.start_time with
        | some st => (now - st) / 60
        | none => 0
      let total_time := user.total_login_time + login_time
      let current_max := user.completed_slides
      let completed_slides := if slide_id > current_max then slide_id else current_max
      (update_one store email
        (fun u => { u with completed_slides := completed_slides,
                           total_login_time := total_time,
                           end_time := some now }),
       .ok (slide_id, now, total_time))

/-- Endpoint `POST /progress/finish` (`finish_training`): 404 when no document
exists, else `$set` `status := "completed"` and `finished_at := now`. -/
def finish_training (store : List UserRecord) (email : String) (now : ℚ) :
    List UserRecord × Except HTTPException Unit :=
  match find_one store email with
  | none => (store, .error userNotFound)
  | some _ =>
      (update_one store email
        (fun u => { u with status := "completed", finished_at := some now }),
       .ok ())

/-- Body of `GET /progress`. -/
structure Progress where
  completed_slides : Int
  total_login_time : ℚ
  login_count : Int
  status : String
deriving DecidableEq

/-- Endpoint `GET /progress` (`get_progress`): read-only snapshot, 404 when the
document is missing. -/
def get_progress (store : List UserRecord) (email : String) :
    Except HTTPException Progress :=
  match find_one store email with
  | none => .error userNotFound
  | some user =>
      .ok { completed_slides := user.completed_slides,
            total_login_time := user.total_login_time,
            login_count := user.login_count,
            status := user.status }

/-- Body of `POST /quiz/submit`. -/
structure QuizSubmitBody where
  error : Bool
  score : Int
  quiz_time : String
  quiz_date : String
deriving DecidableEq

/-- Endpoint `POST /quiz/submit` (`submit_quiz_score`): `$set` the score and the
formatted submission time and date on the user's document — with no
existence check and no upsert, so a missing document makes the update a
no-op — then return the success body echoing the inputs. -/
def submit_quiz_score (store : List UserRecord) (email : String) (score : Int)
    (quiz_time quiz_date : String) : List UserRecord × QuizSubmitBody :=
  (update_one store email
    (fun u => { u with quiz_score := some score,
                       quiz_time := some quiz_time,
                       quiz_date := some quiz_date }),
   { error := false, score := score, quiz_time := quiz_time, quiz_date := quiz_date })

/-- Body of `GET /quiz/score`. -/
structure QuizScoreBody where
  email : String
  quiz_score : Option Int
  quiz_time : Option String
  quiz_date : Option String
deriving DecidableEq

/-- Endpoint `GET /quiz/score` (`get_user_quiz_score`): 404 when the document is
missing, else the stored quiz fields (absent fields read as `None`). -/
def get_user_quiz_score (store : List UserRecord) (email : String) :
    Except HTTPException QuizScoreBody :=
  match find_one store email with
  | none => .error userNotFound
  | some user =>
      .ok { email := email, quiz_score := user.quiz_score,
            quiz_time := user.quiz_time, quiz_date := user.quiz_date }

/-- One entry of the leaderboard projection
`{_id: 0, email: 1, name: 1, quiz_score: 1, quiz_time: 1, quiz_date: 1}`. -/
structure LeaderboardEntry where
  email : String
  name : String
  quiz_score : Option Int
  quiz_time : Option String
  quiz_date : Option String
deriving DecidableEq

/-- Projection of a user document onto a leaderboard entry. -/
def toLeaderboardEntry (u : UserRecord) : LeaderboardEntry :=
  { email := u.email, name := u.name, quiz_score := u.quiz_score,
    quiz_time := u.quiz_time, quiz_date := u.quiz_date }

/-- Mongo's descending sort key on `quiz_score` (all sorted documents have
the field set, so `getD` never fires). -/
def scoreOf (u : UserRecord) : Int := u.quiz_score.getD 0

/-- Sort order used by `.sort("quiz_score", -1)`: `quiz_score` descending. -/
def scoreDescRel (u v : UserRecord) : Prop := scoreOf v ≤ scoreOf u

instance : DecidableRel scoreDescRel := fun u v =>
  inferInstanceAs (Decidable (scoreOf v ≤ scoreOf u))

instance : IsTotal UserRecord scoreDescRel :=
  ⟨fun u v => le_total (scoreOf v) (scoreOf u)⟩

instance : IsTrans UserRecord scoreDescRel :=
  ⟨fun _ _ _ h h' => le_trans h' h⟩

/-- Pymongo's `cursor.limit(n)`: `n = 0` means no limit at all, any other
`n` returns at most `|n|` documents (a negative limit tells the server to
return `|n|` documents and close the cursor). -/
def mongoLimit {α : Type} (n : Int) (xs : List α) : List α :=
  if n = 0 then xs else xs.take n.natAbs

/-- Endpoint `GET /quiz/leaderboard` (`get_quiz_leaderboard`): the documents whose
`quiz_score` field exists, sorted by `quiz_score` descending, limited to
`limit`, projected onto the leaderboard fields. -/
def get_quiz_leaderboard (store : List UserRecord) (limit : Int) :
    List LeaderboardEntry :=
  mongoLimit limit
    (((store.filter (fun u => u.quiz_score.isSome)).insertionSort scoreDescRel).map
      toLeaderboardEntry)

/-- A slide-viewing event: one `POST /progress/start` or `POST /progress/end`
call, with its slide id and its server timestamp. -/
inductive SlideEvent where
  | start (slide_id : Int) (t : ℚ)
  | stop (slide_id : Int) (t : ℚ)
deriving DecidableEq

/-- Run a sequence of start/end calls for one user against the store,
keeping only the store (responses discarded). -/
def runEvents (store : List UserRecord) (email : String) :
    List SlideEvent → List UserRecord
  | [] => store
  | .start sid t :: rest => runEvents (start_slide store email sid t).1 email rest
  | .stop sid t :: rest => runEvents (end_slide store email sid t).1 email rest

/-- Active minutes the SPEC's words attribute to an event sequence: each
`start` opens a pending interval (superseding any previous one), each `end`
closes the pending interval — consuming it — and adds its length in
minutes; an `end` with no pending interval adds zero.  The accumulator is
the pending interval's start time. -/
def claimedActiveMinutes : List SlideEvent → Option ℚ → ℚ
  | [], _ => 0
  | .start _ t :: rest, _ => claimedActiveMinutes rest (some t)
  | .stop _ t :: rest, some st => (t - st) / 60 + claimedActiveMinutes rest none
  | .stop _ _ :: rest, none => claimedActiveMinutes rest none

/-- Active minutes the CODE attributes to an event sequence: `end` reads the
most recent `start_time` but never clears it, so a later `end` without a new
`start` counts from the same start again. -/
def codeActiveMinutes : List SlideEvent → Option ℚ → ℚ
  | [], _ => 0
  | .start _ t :: rest, _ => codeActiveMinutes rest (some t)
  | .stop _ t :: rest, some st => (t - st) / 60 + codeActiveMinutes rest (some st)
  | .stop _ _ :: rest, none => codeActiveMinutes rest none

/-- Run a sequence of `POST /progress/end` calls (slide id, timestamp) for
one user. -/
def runEnds (store : List UserRecord) (email : String) :
    List (Int × ℚ) → List UserRecord
  | [] => store
  | c :: rest => runEnds (end_slide store email c.1 c.2).1 email rest

/-- Any one of the five store-mutating operations, addressed to one user's
e-mail, with the inputs each endpoint takes. -/
inductive Op where
  | start (slide_id : Int) (t : ℚ)
  | stop (slide_id : Int) (t : ℚ)
  | finish (t : ℚ)
  | auth (allow : List (String × String)) (new_id : String) (now ttl : ℚ)
  | submit (score : Int) (quiz_time quiz_date : String)
deriving DecidableEq

/-- Apply one operation for the user with e-mail `email` to the store,
keeping only the store (responses discarded). -/
def applyOp (store : List UserRecord) (email : String) : Op → List UserRecord
  | .start sid t => (start_slide store email sid t).1
  | .stop sid t => (end_slide store email sid t).1
  | .finish t => (finish_training store email t).1
  | .auth allow new_id now ttl => (authenticate_user allow store email new_id now ttl).1
  | .submit sc qt qd => (submit_quiz_score store email sc qt qd).1

/-- Run a sequence of arbitrary operations for one user against the store. -/
def runOps (store : List UserRecord) (email : String) : List Op → List UserRecord
  | [] => store
  | op :: rest => runOps (applyOp store email op) email rest

/-! ## Store lemmas -/

theorem find_one_update_one (store : List UserRecord) (e : String)
    (f : UserRecord → UserRecord) (hf : ∀ u, (f u).email = u.email) :
    find_one (update_one store e f) e = (find_one store e).map f := by
  induction store with
  | nil => rfl
  | cons u rest ih =>
    cases hu : (u.email == e) with
    | true => simp [update_one, find_one, List.find?, hu, hf u]
    | false =>
      simp only [update_one, find_one, List.find?, hu, Bool.false_eq_true,
        if_false] at *
      simp [List.find?, hu, ih]

theorem update_one_no_match (store : List UserRecord) (e : String)
    (f : UserRecord → UserRecord) (h : find_one store e = none) :
    update_one store e f = store := by
  induction store with
  | nil => rfl
  | cons u rest ih =>
    simp only [find_one, List.find?] at h
    cases hu : (u.email == e) with
    | true => rw [hu] at h; exact absurd h (by simp)
    | false =>
      rw [hu] at h
      simp [update_one, hu, ih h]

theorem countEmail_update_one (store : List UserRecord) (e : String)
    (f : UserRecord → UserRecord) (hf : ∀ u, (f u).email = u.email) :
    countEmail (update_one store e f) e = countEmail store e := by
  induction store with
  | nil => rfl
  | cons u rest ih =>
    cases hu : (u.email == e) with
    | true => simp [update_one, countEmail, List.filter, hu, hf u]
    | false =>
      simp only [countEmail] at ih
      simp [countEmail, update_one, hu, List.filter, ih]

theorem countEmail_eq_zero_iff (store : List UserRecord) (e : String) :
    countEmail store e = 0 ↔ find_one store e = none := by
  induction store with
  | nil => simp [countEmail, find_one]
  | cons u rest ih =>
    cases hu : (u.email == e) with
    | true => simp [countEmail, find_one, List.filter, List.find?, hu]
    | false =>
      simp only [countEmail, find_one, List.filter, List.find?, hu] at *
      exact ih

theorem countEmail_append_one (store : List UserRecord) (e : String)
    (w : UserRecord) (hw : (w.email == e) = true) :
    countEmail (store ++ [w]) e = countEmail store e + 1 := by
  simp [countEmail, List.filter_append, hw]

theorem update_one_update_one (store : List UserRecord) (e : String)
    (f g : UserRecord → UserRecord) (hf : ∀ u, (f u).email = u.email) :
    update_one (update_one store e f) e g = update_one store e (fun u => g (f u)) := by
  induction store with
  | nil => rfl
  | cons u rest ih =>
    cases hu : (u.email == e) with
    | true => simp [update_one, hu, hf u]
    | false => simp [update_one, hu, ih]

theorem foldl_max_init_le (calls : List (Int × ℚ)) :
    ∀ a : Int, a ≤ calls.foldl (fun m c => max m c.1) a := by
  induction calls with
  | nil => intro a; simp
  | cons c rest ih =>
    intro a
    calc a ≤ max a c.1 := le_max_left a c.1
    _ ≤ rest.foldl (fun m c => max m c.1) (max a c.1) := ih (max a c.1)

theorem if_gt_eq_max (a b : Int) : (if b > a then b else a) = max a b := by
  rcases lt_or_ge a b with h | h
  · simp [h, max_eq_right h.le]
  · simp [not_lt.2 h, max_eq_left h]

/-! ## Claim theorems -/

/-- C5: on a syntactically invalid e-mail, `/auth` returns the structured
`INVALID_EMAIL_FORMAT` body, and on a well-formed e-mail that is not on the
allow-list it returns the structured `EMAIL_NOT_AUTHORIZED` body; in both
cases the response is an ordinary body (the `AuthResponse` type, never an
`HTTPException`), the user store is returned unchanged, and the error
constructor carries no token. -/
theorem C5_authenticate_errors (allow : List (String × String))
    (store : List UserRecord) (e new_id : String) (now ttl : ℚ) :
    (is_valid_email e = false →
      authenticate_user allow store e new_id now ttl =
        (store, .err "INVALID_EMAIL_FORMAT")) ∧
    (is_valid_email e = true → (is_email_authorized allow e).1 = false →
      authenticate_user allow store e new_id now ttl =
        (store, .err "EMAIL_NOT_AUTHORIZED")) := by
  constructor
  · intro h
    simp [authenticate_user, h]
  · intro h1 h2
    rcases h3 : is_email_authorized allow e with ⟨b, s⟩
    rw [h3] at h2
    simp only at h2
    subst h2
    simp [authenticate_user, h1, h3]

/-- Witness for C5 on the concrete inputs `"not-an-email"` (bad format) and
`"bob@outside.com"` (well-formed but not allow-listed). -/
theorem C5_authenticate_errors_witness :
    is_valid_email "not-an-email" = false ∧
    authenticate_user [("alice@co.com", "Alice")] [] "not-an-email" "id1" 0 30
      = ([], .err "INVALID_EMAIL_FORMAT") ∧
    is_valid_email "bob@outside.com" = true ∧
    (is_email_authorized [("alice@co.com", "Alice")] "bob@outside.com").1 = false ∧
    authenticate_user [("alice@co.com", "Alice")] [] "bob@outside.com" "id1" 0 30
      = ([], .err "EMAIL_NOT_AUTHORIZED") :=
  ⟨by decide,
   (C5_authenticate_errors [("alice@co.com", "Alice")] [] "not-an-email" "id1" 0 30).1
     (by decide),
   by decide, by decide,
   (C5_authenticate_errors [("alice@co.com", "Alice")] [] "bob@outside.com" "id1" 0 30).2
     (by decide) (by decide)⟩

/-- C6: token verification raises the 401 `HTTPException` — which the
exception handler renders as the `UNAUTHORIZED` envelope — exactly when the
signature does not verify, the token is expired (`now > exp`), or the
payload lacks an e-mail claim; otherwise it returns the embedded e-mail. -/
theorem C6_get_current_user_spec (tok : JwtToken) (now : ℚ) :
    ((∃ exc, get_current_user tok now = .error exc ∧ exc.status_code = 401 ∧
        (custom_http_exception_handler exc).error_code = "UNAUTHORIZED") ↔
      (tok.sigValid = false ∨ now > tok.exp ∨ tok.email = none)) ∧
    (∀ e, tok.sigValid = true → ¬ now > tok.exp → tok.email = some e →
      get_current_user tok now = .ok e) := by
  rcases tok with ⟨sv, ex, em⟩
  cases sv <;> rcases em with _ | e <;> by_cases ht : now > ex <;>
    simp [get_current_user, jwt_decode, custom_http_exception_handler, ht]

/-- Witness for C6: a well-signed, unexpired token with an e-mail claim is
accepted and yields that e-mail. -/
theorem C6_get_current_user_spec_witness :
    get_current_user { sigValid := true, exp := 100, email := some "alice@co.com" } 40
      = .ok "alice@co.com" :=
  (C6_get_current_user_spec { sigValid := true, exp := 100, email := some "alice@co.com" } 40).2
    "alice@co.com" rfl (by norm_num) rfl

/-- C7: for an existing user, `/progress/finish` sets `status = "completed"`
and `finished_at` to the call time, touching no other field; a second call
produces exactly the store a single call at the second time would, i.e. the
record afterwards differs from the first call's result only in
`finished_at`. -/
theorem finish_training_step (store : List UserRecord) (e : String) (t : ℚ)
    (u : UserRecord) (h : find_one store e = some u) :
    (finish_training store e t).1 =
      update_one store e
        (fun v => { v with status := "completed", finished_at := some t }) ∧
    (finish_training store e t).2 = .ok () ∧
    find_one (finish_training store e t).1 e =
      some { u with status := "completed", finished_at := some t } := by
  have h1 : (finish_training store e t).1 =
      update_one store e
        (fun v => { v with status := "completed", finished_at := some t }) := by
    simp [finish_training, h]
  have hmap := find_one_update_one store e
    (fun v => { v with status := "completed", finished_at := some t }) (fun _ => rfl)
  refine ⟨h1, by simp [finish_training, h], ?_⟩
  rw [h1, hmap, h]
  rfl

theorem C7_finish_training_idempotent (store : List UserRecord) (e : String)
    (t1 t2 : ℚ) (u : UserRecord) (h : find_one store e = some u) :
    find_one (finish_training store e t1).1 e =
      some { u with status := "completed", finished_at := some t1 } ∧
    (finish_training store e t1).2 = .ok () ∧
    (finish_training (finish_training store e t1).1 e t2).1 =
      (finish_training store e t2).1 ∧
    find_one (finish_training (finish_training store e t1).1 e t2).1 e =
      some { u with status := "completed", finished_at := some t2 } := by
  obtain ⟨h1, hr, ha⟩ := finish_training_step store e t1 u h
  obtain ⟨h2, -, hb⟩ := finish_training_step (finish_training store e t1).1 e t2 _ ha
  obtain ⟨h3, -, -⟩ := finish_training_step store e t2 u h
  have hcomp : (finish_training (finish_training store e t1).1 e t2).1 =
      (finish_training store e t2).1 := by
    rw [h2, h3, h1, update_one_update_one store e
      (fun v => { v with status := "completed", finished_at := some t1 })
      (fun v => { v with status := "completed", finished_at := some t2 })
      (fun _ => rfl)]
  exact ⟨ha, hr, hcomp, hb⟩

/-- Witness for C7 on a one-user store. -/
theorem C7_finish_training_idempotent_witness :
    (finish_training (finish_training [newUserRecord "u7" "g@h.co" "G"] "g@h.co" 10).1
        "g@h.co" 20).1 =
      (finish_training [newUserRecord "u7" "g@h.co" "G"] "g@h.co" 20).1 :=
  (C7_finish_training_idempotent [newUserRecord "u7" "g@h.co" "G"] "g@h.co" 10 20
    (newUserRecord "u7" "g@h.co" "G") rfl).2.2.1

/-- C10: when no `UserRecord` exists for the authenticated e-mail,
`/quiz/submit` succeeds anyway — its `update_one` matches nothing, so the
store is unchanged and no record is created, and the body echoes score,
time and date — whereas `/progress/end`, `GET /progress` and
`GET /quiz/score` all raise the 404 `"User not found"` exception. -/
theorem C10_submit_quiz_no_user (store : List UserRecord) (e : String)
    (score sid : Int) (t : ℚ) (qt qd : String)
    (h : find_one store e = none) :
    submit_quiz_score store e score qt qd =
      (store, { error := false, score := score, quiz_time := qt, quiz_date := qd }) ∧
    (end_slide store e sid t).2 = .error userNotFound ∧
    get_progress store e = .error userNotFound ∧
    get_user_quiz_score store e = .error userNotFound := by
  refine ⟨?_, ?_, ?_, ?_⟩
  · simp [submit_quiz_score, update_one_no_match store e _ h]
  · simp [end_slide, h]
  · simp [get_progress, h]
  · simp [get_user_quiz_score, h]

/-- C1 counterexample: the allow-list lookup lowercases the e-mail but the
user store is keyed by the raw e-mail, so authenticating the same
authorized e-mail in two capitalizations creates two `UserRecord`s — and
the stored keys are not lowercase-normalized.  This refutes the claim's
"case variants never create a second record". -/
theorem C1_case_variant_second_record :
    ((authenticate_user [("alice@co.com", "Alice")]
        (authenticate_user [("alice@co.com", "Alice")] [] "Alice@co.com" "id1" 0 30).1
        "alice@co.com" "id2" 0 30).1.map (fun u => u.email))
      = ["Alice@co.com", "alice@co.com"] ∧
    ((authenticate_user [("alice@co.com", "Alice")]
        (authenticate_user [("alice@co.com", "Alice")] [] "Alice@co.com" "id1" 0 30).1
        "alice@co.com" "id2" 0 30).1.filter
        (fun u => lowerStr u.email == "alice@co.com")).length = 2 := by
  constructor <;> decide

/-- C1 amended: repeated `/auth` calls with the identical e-mail string
never create a second `UserRecord` for that exact string — once a record
with that raw e-mail exists, every later call updates it in place — but the
record keys are the raw e-mails, so distinct case variants of one
authorized e-mail get distinct records. -/
theorem C1_auth_unique_record (allow : List (String × String))
    (store : List UserRecord) (e new_id : String) (now ttl : ℚ) (name : String)
    (hv : is_valid_email e = true)
    (ha : is_email_authorized allow e = (true, name))
    (hc : countEmail store e ≤ 1) :
    countEmail (authenticate_user allow store e new_id now ttl).1 e = 1 ∧
    (∀ u, find_one store e = some u →
      (authenticate_user allow store e new_id now ttl).1 =
        update_one store e (fun v => { v with login_count := u.login_count + 1 })) := by
  cases hfind : find_one store e with
  | none =>
    have hc0 : countEmail store e = 0 := (countEmail_eq_zero_iff store e).mpr hfind
    constructor
    · have hres : (authenticate_user allow store e new_id now ttl).1 =
          store ++ [newUserRecord new_id e name] := by
        simp [authenticate_user, hv, ha, hfind]
      rw [hres, countEmail_append_one store e _ (by simp [newUserRecord]), hc0]
    · intro u hu
      exact Option.noConfusion hu
  | some u =>
    have h1 : countEmail store e ≠ 0 := by
      intro h0
      rw [(countEmail_eq_zero_iff store e).mp h0] at hfind
      cases hfind
    have hres : (authenticate_user allow store e new_id now ttl).1 =
        update_one store e (fun v => { v with login_count := u.login_count + 1 }) := by
      simp [authenticate_user, hv, ha, hfind]
    constructor
    · rw [hres, countEmail_update_one store e
        (fun v => { v with login_count := u.login_count + 1 }) (fun _ => rfl)]
      omega
    · intro u' hu'
      injection hu' with hh
      subst hh
      exact hres

/-- Witness for C1 (amended) on a one-user store: a second call with the
same raw e-mail leaves exactly one record. -/
theorem C1_auth_unique_record_witness :
    countEmail (authenticate_user [("alice@co.com", "Alice")]
      [newUserRecord "id1" "alice@co.com" "Alice"] "alice@co.com" "id2" 0 30).1
      "alice@co.com" = 1 :=
  (C1_auth_unique_record [("alice@co.com", "Alice")]
    [newUserRecord "id1" "alice@co.com" "Alice"] "alice@co.com" "id2" 0 30 "Alice"
    (by decide) (by decide) (by decide)).1

/-- C3: `/auth` on a valid, allow-listed e-mail: an existing record gets its
`login_count` incremented by exactly 1 and the response reports the new
count (and token and display name); a missing record is created with the
supplied fresh id, the credential's display name, `login_count = 1`,
`completed_slides = 0`, `total_login_time = 0.0`, `status = "in_progress"`,
and the response reports `login_count = 1` and the display name.  When the
generated id is fresh, id uniqueness of the store is preserved. -/
theorem C3_authenticate_spec (allow : List (String × String))
    (store : List UserRecord) (e new_id : String) (now ttl : ℚ) (name : String)
    (hv : is_valid_email e = true)
    (ha : is_email_authorized allow e = (true, name)) :
    (∀ u, find_one store e = some u →
      authenticate_user allow store e new_id now ttl =
        (update_one store e (fun v => { v with login_count := u.login_count + 1 }),
         .ok (create_access_token e now ttl) e (u.login_count + 1) name) ∧
      find_one (authenticate_user allow store e new_id now ttl).1 e =
        some { u with login_count := u.login_count + 1 }) ∧
    (find_one store e = none →
      authenticate_user allow store e new_id now ttl =
        (store ++ [newUserRecord new_id e name],
         .ok (create_access_token e now ttl) e 1 name) ∧
      (newUserRecord new_id e name).id = new_id ∧
      (newUserRecord new_id e name).name = name ∧
      (newUserRecord new_id e name).login_count = 1 ∧
      (newUserRecord new_id e name).completed_slides = 0 ∧
      (newUserRecord new_id e name).total_login_time = 0 ∧
      (newUserRecord new_id e name).status = "in_progress" ∧
      (new_id ∉ store.map (fun v => v.id) → (store.map (fun v => v.id)).Nodup →
        ((authenticate_user allow store e new_id now ttl).1.map
          (fun v => v.id)).Nodup)) := by
  constructor
  · intro u hfind
    have hres : authenticate_user allow store e new_id now ttl =
        (update_one store e (fun v => { v with login_count := u.login_count + 1 }),
         .ok (create_access_token e now ttl) e (u.login_count + 1) name) := by
      simp [authenticate_user, hv, ha, hfind]
    refine ⟨hres, ?_⟩
    rw [hres]
    have hmap := find_one_update_one store e
      (fun v => { v with login_count := u.login_count + 1 }) (fun _ => rfl)
    rw [hmap, hfind]
    rfl
  · intro hfind
    have hres : authenticate_user allow store e new_id now ttl =
        (store ++ [newUserRecord new_id e name],
         .ok (create_access_token e now ttl) e 1 name) := by
      simp [authenticate_user, hv, ha, hfind]
    refine ⟨hres, rfl, rfl, rfl, rfl, rfl, rfl, ?_⟩
    intro hfresh hnodup
    rw [hres]
    simp only [List.map_append, List.map_cons, List.map_nil]
    rw [List.nodup_append]
    refine ⟨hnodup, List.nodup_singleton _, ?_⟩
    intro a ha hb
    rw [List.mem_singleton] at hb
    subst hb
    exact hfresh ha

/-- Witness for C3 on the empty store: the first authentication creates the
record and reports `login_count = 1`. -/
theorem C3_authenticate_spec_witness :
    authenticate_user [("alice@co.com", "Alice")] [] "alice@co.com" "id1" 0 30 =
      ([newUserRecord "id1" "alice@co.com" "Alice"],
       .ok (create_access_token "alice@co.com" 0 30) "alice@co.com" 1 "Alice") :=
  ((C3_authenticate_spec [("alice@co.com", "Alice")] [] "alice@co.com" "id1" 0 30 "Alice"
    (by decide) (by decide)).2 rfl).1

/-- Single step of `end_slide` on an existing user, for reuse in the
sequence proofs: the store is an `update_one` with the explicit field
changes, performed on the found record. -/
theorem end_slide_step (store : List UserRecord) (e : String) (sid : Int)
    (t : ℚ) (u : UserRecord) (h : find_one store e = some u) :
    find_one (end_slide store e sid t).1 e =
      some { u with
        completed_slides := if sid > u.completed_slides then sid else u.completed_slides,
        total_login_time := u.total_login_time +
          (match u.start_time with
           | some st => (t - st) / 60
           | none => 0),
        end_time := some t } := by
  have h1 : (end_slide store e sid t).1 =
      update_one store e
        (fun v => { v with
          completed_slides := if sid > u.completed_slides then sid else u.completed_slides,
          total_login_time := u.total_login_time +
            (match u.start_time with
             | some st => (t - st) / 60
             | none => 0),
          end_time := some t }) := by
    simp [end_slide, h]
  have hmap := find_one_update_one store e
    (fun v => { v with
      completed_slides := if sid > u.completed_slides then sid else u.completed_slides,
      total_login_time := u.total_login_time +
        (match u.start_time with
         | some st => (t - st) / 60
         | none => 0),
      end_time := some t }) (fun _ => rfl)
  rw [h1, hmap, h]
  rfl

/-- Single step of `start_slide` on an existing user. -/
theorem start_slide_step (store : List UserRecord) (e : String) (sid : Int)
    (t : ℚ) (u : UserRecord) (h : find_one store e = some u) :
    find_one (start_slide store e sid t).1 e =
      some { u with current_slide := some sid, start_time := some t } := by
  have h1 : (start_slide store e sid t).1 =
      update_one store e
        (fun v => { v with current_slide := some sid, start_time := some t }) := by
    simp [start_slide, h]
  have hmap := find_one_update_one store e
    (fun v => { v with current_slide := some sid, start_time := some t }) (fun _ => rfl)
  rw [h1, hmap, h]
  rfl

/-- Single step of `submit_quiz_score` on an existing user: only the quiz
fields change. -/
theorem submit_quiz_step (store : List UserRecord) (e : String) (sc : Int)
    (qt qd : String) (u : UserRecord) (h : find_one store e = some u) :
    find_one (submit_quiz_score store e sc qt qd).1 e =
      some { u with
        quiz_score := some sc, quiz_time := some qt, quiz_date := some qd } := by
  have hmap := find_one_update_one store e
    (fun v => { v with
      quiz_score := some sc, quiz_time := some qt, quiz_date := some qd })
    (fun _ => rfl)
  have hres : (submit_quiz_score store e sc qt qd).1 =
      update_one store e (fun v => { v with
        quiz_score := some sc, quiz_time := some qt, quiz_date := some qd }) := rfl
  rw [hres, hmap, h]
  rfl

/-- Single step of `authenticate_user` addressed to an existing user's
e-mail: whichever branch is taken, the record's `completed_slides` is
unchanged. -/
theorem authenticate_user_completed_step (allow : List (String × String))
    (store : List UserRecord) (e new_id : String) (now ttl : ℚ)
    (u : UserRecord) (h : find_one store e = some u) :
    ∃ u', find_one (authenticate_user allow store e new_id now ttl).1 e = some u' ∧
      u'.completed_slides = u.completed_slides := by
  cases hv : is_valid_email e with
  | false =>
    have hres : (authenticate_user allow store e new_id now ttl).1 = store := by
      simp [authenticate_user, hv]
    exact ⟨u, by rw [hres]; exact h, rfl⟩
  | true =>
    rcases hA : is_email_authorized allow e with ⟨b, name⟩
    cases b with
    | false =>
      have hres : (authenticate_user allow store e new_id now ttl).1 = store := by
        simp [authenticate_user, hv, hA]
      exact ⟨u, by rw [hres]; exact h, rfl⟩
    | true =>
      have hres : (authenticate_user allow store e new_id now ttl).1 =
          update_one store e
            (fun v => { v with login_count := u.login_count + 1 }) := by
        simp [authenticate_user, hv, hA, h]
      have hmap := find_one_update_one store e
        (fun v => { v with login_count := u.login_count + 1 }) (fun _ => rfl)
      refine ⟨{ u with login_count := u.login_count + 1 }, ?_, rfl⟩
      rw [hres, hmap, h]
      rfl

/-- Any single operation addressed to an existing user's e-mail leaves a
record whose `completed_slides` is at least the old one: `end_slide` raises
it to the max with the slide id, the other four never write it. -/
theorem applyOp_completed_mono (store : List UserRecord) (e : String)
    (u : UserRecord) (h : find_one store e = some u) (op : Op) :
    ∃ u', find_one (applyOp store e op) e = some u' ∧
      u.completed_slides ≤ u'.completed_slides := by
  cases op with
  | start sid t => exact ⟨_, start_slide_step store e sid t u h, le_refl _⟩
  | stop sid t =>
    refine ⟨_, end_slide_step store e sid t u h, ?_⟩
    show u.completed_slides ≤
      (if sid > u.completed_slides then sid else u.completed_slides)
    rw [if_gt_eq_max u.completed_slides sid]
    exact le_max_left _ _
  | finish t => exact ⟨_, (finish_training_step store e t u h).2.2, le_refl _⟩
  | auth allow new_id now ttl =>
    obtain ⟨u', h1, h2⟩ :=
      authenticate_user_completed_step allow store e new_id now ttl u h
    exact ⟨u', h1, le_of_eq h2.symm⟩
  | submit sc qt qd => exact ⟨_, submit_quiz_step store e sc qt qd u h, le_refl _⟩

/-- Over a sequence of arbitrary operations on an existing record,
`completed_slides` never decreases. -/
theorem runOps_completed_mono (e : String) (ops : List Op) :
    ∀ (store : List UserRecord) (u : UserRecord), find_one store e = some u →
      ∃ u', find_one (runOps store e ops) e = some u' ∧
        u.completed_slides ≤ u'.completed_slides := by
  induction ops with
  | nil =>
    intro store u h
    exact ⟨u, by simpa [runOps] using h, le_refl _⟩
  | cons op rest ih =>
    intro store u h
    obtain ⟨u1, h1, hle1⟩ := applyOp_completed_mono store e u h op
    obtain ⟨u', h2, hle2⟩ := ih (applyOp store e op) u1 h1
    exact ⟨u', by simpa [runOps] using h2, le_trans hle1 hle2⟩

/-- Over a sequence of `end_slide` calls on an existing record,
`completed_slides` afterwards is the fold of `max` over the submitted slide
ids starting from the prior value. -/
theorem runEnds_completed (e : String) (calls : List (Int × ℚ)) :
    ∀ (store : List UserRecord) (u : UserRecord), find_one store e = some u →
      ∃ u', find_one (runEnds store e calls) e = some u' ∧
        u'.completed_slides = calls.foldl (fun m c => max m c.1) u.completed_slides ∧
        u.completed_slides ≤ u'.completed_slides := by
  induction calls with
  | nil =>
    intro store u h
    exact ⟨u, by simpa [runEnds] using h, by simp, le_refl _⟩
  | cons c rest ih =>
    intro store u h
    have hf := end_slide_step store e c.1 c.2 u h
    obtain ⟨u', h1, h2, h3⟩ := ih (end_slide store e c.1 c.2).1 _ hf
    refine ⟨u', by simpa [runEnds] using h1, ?_, ?_⟩
    · rw [h2]
      simp only [List.foldl_cons]
      rw [if_gt_eq_max u.completed_slides c.1]
    · calc u.completed_slides
          ≤ max u.completed_slides c.1 := le_max_left _ _
        _ = (if c.1 > u.completed_slides then c.1 else u.completed_slides) :=
            (if_gt_eq_max u.completed_slides c.1).symm
        _ ≤ u'.completed_slides := by
            rw [h2]
            exact foldl_max_init_le rest _

/-- C4: over any sequence of `end_slide` calls on an existing record,
`completed_slides` afterwards is the maximum of the submitted slide ids and
the prior value; and over any sequence whatsoever of the five operations
(`start_slide`, `end_slide`, `finish_training`, `authenticate_user`,
`submit_quiz_score`) addressed to that record's e-mail, `completed_slides`
never decreases. -/
theorem C4_completed_high_water (e : String) (calls : List (Int × ℚ)) :
    (∀ (store : List UserRecord) (u : UserRecord), find_one store e = some u →
      ∃ u', find_one (runEnds store e calls) e = some u' ∧
        u'.completed_slides = calls.foldl (fun m c => max m c.1) u.completed_slides ∧
        u.completed_slides ≤ u'.completed_slides) ∧
    (∀ (ops : List Op) (store : List UserRecord) (u : UserRecord),
      find_one store e = some u →
      ∃ u', find_one (runOps store e ops) e = some u' ∧
        u.completed_slides ≤ u'.completed_slides) :=
  ⟨runEnds_completed e calls, fun ops => runOps_completed_mono e ops⟩

/-- Witness for C4: one `end_slide` call with slide 3 on a fresh record,
and a mixed start/end/finish/submit sequence that never lowers
`completed_slides`. -/
theorem C4_completed_high_water_witness :
    (∃ u', find_one (runEnds [newUserRecord "u4" "d@e.co" "D"] "d@e.co" [(3, 60)])
        "d@e.co" = some u' ∧
      u'.completed_slides = [((3 : Int), (60 : ℚ))].foldl (fun m c => max m c.1)
        (newUserRecord "u4" "d@e.co" "D").completed_slides ∧
      (newUserRecord "u4" "d@e.co" "D").completed_slides ≤ u'.completed_slides) ∧
    (∃ u', find_one (runOps [newUserRecord "u4" "d@e.co" "D"] "d@e.co"
        [Op.start 3 0, Op.stop 3 60, Op.finish 90, Op.submit 7 "10:00:00" "2026-01-01"])
        "d@e.co" = some u' ∧
      (newUserRecord "u4" "d@e.co" "D").completed_slides ≤ u'.completed_slides) :=
  ⟨(C4_completed_high_water "d@e.co" [(3, 60)]).1 [newUserRecord "u4" "d@e.co" "D"]
      (newUserRecord "u4" "d@e.co" "D") rfl,
   (C4_completed_high_water "d@e.co" [(3, 60)]).2
      [Op.start 3 0, Op.stop 3 60, Op.finish 90, Op.submit 7 "10:00:00" "2026-01-01"]
      [newUserRecord "u4" "d@e.co" "D"] (newUserRecord "u4" "d@e.co" "D") rfl⟩

/-- C2 counterexample: `end_slide` never clears `start_time`, so after
`start(t=0); end(t=60); end(t=120)` the code has accumulated
`1 + 2 = 3` minutes, while the claim's matched-pairs sum — under which the
second `end` has no unconsumed start and adds zero — is `1` minute. -/
theorem C2_end_without_start_recounts :
    (find_one (runEvents [newUserRecord "u1" "a@b.co" "A"] "a@b.co"
        [SlideEvent.start 1 0, SlideEvent.stop 1 60, SlideEvent.stop 1 120])
        "a@b.co").map (fun u => u.total_login_time) = some 3 ∧
    (newUserRecord "u1" "a@b.co" "A").total_login_time
      + claimedActiveMinutes
          [SlideEvent.start 1 0, SlideEvent.stop 1 60, SlideEvent.stop 1 120] none
      = 1 ∧
    (3 : ℚ) ≠ 1 := by
  refine ⟨?_, ?_, by norm_num⟩
  · simp [runEvents, end_slide, start_slide, find_one, update_one, newUserRecord]
    norm_num
  · simp [claimedActiveMinutes, newUserRecord]

/-- C2 amended: after any start/end sequence, `total_login_time` equals its
initial value plus the code's accumulation, in which each `end` adds the
minutes since the most recent `start_time` — which is never consumed, so an
`end` with no new `start` counts from that same start again — and an `end`
before any start ever adds zero; a `start` superseded by a later `start`
before its `end` contributes nothing. -/
theorem C2_total_active_minutes (e : String) (evs : List SlideEvent) :
    ∀ (store : List UserRecord) (u : UserRecord), find_one store e = some u →
      ∃ u', find_one (runEvents store e evs) e = some u' ∧
        u'.total_login_time = u.total_login_time + codeActiveMinutes evs u.start_time := by
  induction evs with
  | nil =>
    intro store u h
    exact ⟨u, by simpa [runEvents] using h, by simp [codeActiveMinutes]⟩
  | cons ev rest ih =>
    intro store u h
    cases ev with
    | start sid t =>
      have hf := start_slide_step store e sid t u h
      obtain ⟨u', h1, h2⟩ := ih (start_slide store e sid t).1 _ hf
      refine ⟨u', by simpa [runEvents] using h1, ?_⟩
      rw [h2]
      simp [codeActiveMinutes]
    | stop sid t =>
      have hf := end_slide_step store e sid t u h
      obtain ⟨u', h1, h2⟩ := ih (end_slide store e sid t).1 _ hf
      refine ⟨u', by simpa [runEvents] using h1, ?_⟩
      rw [h2]
      cases hst : u.start_time with
      | none => simp [codeActiveMinutes, hst]
      | some st =>
        simp only [codeActiveMinutes, hst]
        ring

/-- Witness for C2 (amended): a start at 0 followed by an end at 60 seconds
adds one minute. -/
theorem C2_total_active_minutes_witness :
    ∃ u', find_one (runEvents [newUserRecord "u2" "b@c.co" "B"] "b@c.co"
        [SlideEvent.start 1 0, SlideEvent.stop 1 60]) "b@c.co" = some u' ∧
      u'.total_login_time = (newUserRecord "u2" "b@c.co" "B").total_login_time
        + codeActiveMinutes [SlideEvent.start 1 0, SlideEvent.stop 1 60]
            (newUserRecord "u2" "b@c.co" "B").start_time :=
  C2_total_active_minutes "b@c.co" [SlideEvent.start 1 0, SlideEvent.stop 1 60]
    [newUserRecord "u2" "b@c.co" "B"] (newUserRecord "u2" "b@c.co" "B") rfl

/-- C9 counterexample: an `end_slide` whose recorded `start_time` lies after
the end timestamp adds a negative elapsed time — here
`5 + (0 - 600)/60 = -5` — so `total_login_time` decreases, refuting the
claim's unconditional monotonicity. -/
theorem C9_negative_elapsed_decreases :
    (find_one (end_slide [{ newUserRecord "u9" "a@b.co" "A" with
        total_login_time := 5, start_time := some 600 }] "a@b.co" 1 0).1
        "a@b.co").map (fun u => u.total_login_time) = some (-5) ∧
    (-5 : ℚ) < 5 := by
  refine ⟨?_, by norm_num⟩
  simp [end_slide, find_one, update_one, newUserRecord]
  norm_num

/-- C9 amended: `total_login_time` of an existing record never decreases
under `start_slide`, `finish_training`, `submit_quiz_score` or
`authenticate_user` addressed to that record's e-mail, and never decreases
under `end_slide` provided the end timestamp is not earlier than the
recorded `start_time` (as holds whenever the server clock is monotone); an
`end_slide` whose `start_time` lies after the end timestamp can decrease
it. -/
theorem C9_total_nondecreasing (store : List UserRecord) (e : String)
    (u : UserRecord) (h : find_one store e = some u) :
    (∀ sid t, ∃ u', find_one (start_slide store e sid t).1 e = some u' ∧
        u.total_login_time ≤ u'.total_login_time) ∧
    (∀ t, ∃ u', find_one (finish_training store e t).1 e = some u' ∧
        u.total_login_time ≤ u'.total_login_time) ∧
    (∀ sc qt qd, ∃ u', find_one (submit_quiz_score store e sc qt qd).1 e = some u' ∧
        u.total_login_time ≤ u'.total_login_time) ∧
    (∀ allow new_id now ttl, ∃ u',
        find_one (authenticate_user allow store e new_id now ttl).1 e = some u' ∧
        u.total_login_time ≤ u'.total_login_time) ∧
    (∀ sid t, (∀ st, u.start_time = some st → st ≤ t) →
        ∃ u', find_one (end_slide store e sid t).1 e = some u' ∧
          u.total_login_time ≤ u'.total_login_time) := by
  refine ⟨?_, ?_, ?_, ?_, ?_⟩
  · intro sid t
    exact ⟨_, start_slide_step store e sid t u h, le_refl _⟩
  · intro t
    exact ⟨_, (finish_training_step store e t u h).2.2, le_refl _⟩
  · intro sc qt qd
    have hmap := find_one_update_one store e
      (fun v => { v with
        quiz_score := some sc, quiz_time := some qt, quiz_date := some qd })
      (fun _ => rfl)
    have hres : (submit_quiz_score store e sc qt qd).1 =
        update_one store e (fun v => { v with
          quiz_score := some sc, quiz_time := some qt, quiz_date := some qd }) := rfl
    refine ⟨{ u with
      quiz_score := some sc, quiz_time := some qt, quiz_date := some qd }, ?_, le_refl _⟩
    rw [hres, hmap, h]
    rfl
  · intro allow new_id now ttl
    cases hv : is_valid_email e with
    | false =>
      have : (authenticate_user allow store e new_id now ttl).1 = store := by
        simp [authenticate_user, hv]
      exact ⟨u, by rw [this]; exact h, le_refl _⟩
    | true =>
      rcases hA : is_email_authorized allow e with ⟨b, name⟩
      cases b with
      | false =>
        have : (authenticate_user allow store e new_id now ttl).1 = store := by
          simp [authenticate_user, hv, hA]
        exact ⟨u, by rw [this]; exact h, le_refl _⟩
      | true =>
        have hres : (authenticate_user allow store e new_id now ttl).1 =
            update_one store e
              (fun v => { v with login_count := u.login_count + 1 }) := by
          simp [authenticate_user, hv, hA, h]
        have hmap := find_one_update_one store e
          (fun v => { v with login_count := u.login_count + 1 }) (fun _ => rfl)
        refine ⟨{ u with login_count := u.login_count + 1 }, ?_, le_refl _⟩
        rw [hres, hmap, h]
        rfl
  · intro sid t hts
    refine ⟨_, end_slide_step store e sid t u h, ?_⟩
    show u.total_login_time ≤ u.total_login_time +
      (match u.start_time with
       | some st => (t - st) / 60
       | none => 0)
    cases hst : u.start_time with
    | none => simp
    | some st =>
      have hnn : (0 : ℚ) ≤ (t - st) / 60 :=
        div_nonneg (sub_nonneg.mpr (hts st hst)) (by norm_num)
      simp only
      linarith

/-- Witness for C9 (amended): an `end_slide` at time 30 against a record
with no open interval leaves the total unchanged, hence non-decreasing. -/
theorem C9_total_nondecreasing_witness :
    ∃ u', find_one (end_slide [newUserRecord "u9w" "c@d.co" "C"] "c@d.co" 2 30).1
        "c@d.co" = some u' ∧
      (newUserRecord "u9w" "c@d.co" "C").total_login_time ≤ u'.total_login_time :=
  (C9_total_nondecreasing [newUserRecord "u9w" "c@d.co" "C"] "c@d.co"
    (newUserRecord "u9w" "c@d.co" "C") rfl).2.2.2.2 2 30
    (fun _ hst => Option.noConfusion hst)

/-- C8 counterexample: pymongo's `limit(0)` means "no limit", so with one
scored user and `limit = 0` the leaderboard has length 1, not ≤ 0. -/
theorem C8_limit_zero_not_bounded :
    ¬ ((get_quiz_leaderboard
        [{ newUserRecord "u8" "a@b.co" "A" with
            quiz_score := some 5, quiz_time := some "10:00:00",
            quiz_date := some "2026-01-01" }] 0).length ≤ 0) := by
  decide

/-- C8 amended: for every store state and every `limit ≥ 1`, the
leaderboard has length at most `limit` and at most the number of users with
a submitted (`$exists`) quiz score, is sorted by `quiz_score` descending,
and every entry is the projection of a stored user with a submitted score
(carrying that user's e-mail, display name, score, and submission time and
date); for `limit = 0` Mongo imposes no bound. -/
theorem C8_leaderboard_spec (store : List UserRecord) (limit : Int)
    (hl : 1 ≤ limit) :
    ((get_quiz_leaderboard store limit).length : Int) ≤ limit ∧
    (get_quiz_leaderboard store limit).length ≤
      (store.filter (fun u => u.quiz_score.isSome)).length ∧
    List.Pairwise
      (fun a b : LeaderboardEntry => b.quiz_score.getD 0 ≤ a.quiz_score.getD 0)
      (get_quiz_leaderboard store limit) ∧
    (∀ x ∈ get_quiz_leaderboard store limit,
      ∃ u, u ∈ store ∧ u.quiz_score.isSome ∧ x = toLeaderboardEntry u) := by
  have hne : limit ≠ 0 := by omega
  have hLB : get_quiz_leaderboard store limit =
      (((store.filter (fun u => u.quiz_score.isSome)).insertionSort
          scoreDescRel).map toLeaderboardEntry).take limit.natAbs := by
    simp [get_quiz_leaderboard, mongoLimit, hne]
  refine ⟨?_, ?_, ?_, ?_⟩
  · rw [hLB]
    have hlt := List.length_take_le limit.natAbs
      (((store.filter (fun u => u.quiz_score.isSome)).insertionSort
        scoreDescRel).map toLeaderboardEntry)
    omega
  · rw [hLB]
    calc ((((store.filter (fun u => u.quiz_score.isSome)).insertionSort
            scoreDescRel).map toLeaderboardEntry).take limit.natAbs).length
        ≤ (((store.filter (fun u => u.quiz_score.isSome)).insertionSort
            scoreDescRel).map toLeaderboardEntry).length :=
          (List.take_sublist _ _).length_le
      _ = (store.filter (fun u => u.quiz_score.isSome)).length := by
          rw [List.length_map, List.length_insertionSort]
  · rw [hLB]
    have hp : List.Pairwise
        (fun a b : LeaderboardEntry => b.quiz_score.getD 0 ≤ a.quiz_score.getD 0)
        (((store.filter (fun u => u.quiz_score.isSome)).insertionSort
          scoreDescRel).map toLeaderboardEntry) := by
      rw [List.pairwise_map]
      exact List.sorted_insertionSort scoreDescRel
        (store.filter (fun u => u.quiz_score.isSome))
    exact hp.sublist (List.take_sublist _ _)
  · rw [hLB]
    intro x hx
    have hx1 := List.mem_of_mem_take hx
    obtain ⟨v, hv, hvx⟩ := List.mem_map.mp hx1
    have hv2 : v ∈ store.filter (fun w => w.quiz_score.isSome) :=
      (List.mem_insertionSort scoreDescRel).mp hv
    have hv3 := List.mem_filter.mp hv2
    exact ⟨v, hv3.1, hv3.2, hvx.symm⟩

/-- Witness for C8 (amended) on a one-user store with the default limit. -/
theorem C8_leaderboard_spec_witness :
    ((get_quiz_leaderboard
        [{ newUserRecord "u8w" "a@b.co" "A" with
            quiz_score := some 5, quiz_time := some "10:00:00",
            quiz_date := some "2026-01-01" }] 10).length : Int) ≤ 10 :=
  (C8_leaderboard_spec
    [{ newUserRecord "u8w" "a@b.co" "A" with
        quiz_score := some 5, quiz_time := some "10:00:00",
        quiz_date := some "2026-01-01" }] 10
    (by norm_num)).1

/-- Witness for C10 on the empty store. -/
theorem C10_submit_quiz_no_user_witness :
    submit_quiz_score [] "a@b.co" 7 "10:00:00" "2026-01-01" =
      ([], { error := false, score := 7, quiz_time := "10:00:00",
             quiz_date := "2026-01-01" }) :=
  (C10_submit_quiz_no_user [] "a@b.co" 7 1 0 "10:00:00" "2026-01-01" rfl).1

end Posh
